import Mathlib

/-!
# libcurl examples: response accumulation and TTC field extraction

A shallow embedding of the `write_data` callbacks, of `PrintTTCVehicleInfo`
and of the `main` functions of `libcurlExamples/libcurl_ex*.cpp`, followed by
the properties established about them.

Memory is modelled by lists of cells.  A cell is `some b` for an initialised
`char` holding `b`, and `none` for an indeterminate one (fresh storage from
`new char[n]`, or a read past the end of an array).  `size_t` is 64 bits wide
and `unsigned int` 32 bits wide; arithmetic in these types is reduced modulo
`2^64` and `2^32`.  Each callback is given twice: `write_data` is what a call
that obtains its storage returns and leaves, `write_data_call` says, under the
storage limits of the run, whether the call returns at all.
-/

set_option autoImplicit false

/-! ## Bytes, arrays and `strncpy` -/

/-- A `char`, as its unsigned value. -/
abbrev Byte := Fin 256

/-- One `char` of storage: `none` when its value is indeterminate. -/
abbrev Cell := Option Byte

/-- Modulus of `size_t` arithmetic. -/
def SIZE_T_MOD : Nat := 2 ^ 64

/-- Modulus of `unsigned int` arithmetic. -/
def UINT_MOD : Nat := 2 ^ 32

/-- The character `'\n'`. -/
def NEWLINE : Byte := 10

/-- The storage returned by `new char[n]`: `n` indeterminate cells. -/
def new_char (n : Nat) : List Cell := List.replicate n none

/-- The `n` characters `strncpy(dest, src, n)` writes: the characters of `src`
up to its first NUL, then NUL padding up to `n` characters.  Reading past
the end of `src` yields indeterminate characters, and an indeterminate
character of `src` is copied as such. -/
def strncpy_chars : List Cell → Nat → List Cell
  | _, 0 => []
  | [], n + 1 => none :: strncpy_chars [] n
  | c :: rest, n + 1 =>
    if c = some 0 then List.replicate (n + 1) (some 0) else c :: strncpy_chars rest n

/-- Overwrite `dest` from offset `off` on with `src`; cells outside `dest` are
not part of the array and stay out of the result. -/
def store (dest : List Cell) (off : Nat) (src : List Cell) : List Cell :=
  (dest.take off ++ src ++ dest.drop (off + src.length)).take dest.length

/-- The call `strncpy(dest + off, src, n)`, returning the array `dest` after it. -/
def strncpy (dest : List Cell) (off : Nat) (src : List Cell) (n : Nat) : List Cell :=
  store dest off (strncpy_chars src n)

/-- The characters a `char *` pointing at initialised data `buf` gives access to. -/
def cells (buf : List Byte) : List Cell := buf.map some

/-- The storage a call can obtain: `heap` is the longest array `new char[n]`
provides (a longer request throws `std::bad_alloc`), `stack` the longest local
array the stack holds. -/
structure Limits where
  heap : Nat
  stack : Nat

/-- How a call of a callback ends: it returns a value and leaves a state, or
`new` throws `std::bad_alloc`, or its local array does not fit the stack, or it
reads or writes outside an array, after which nothing is defined. -/
inductive Ended (α : Type) where
  | returned (value : Nat) (after : α)
  | bad_alloc
  | stack_overflow
  | undefined
  deriving DecidableEq, Repr

/-- Whether `strncpy(dest, src, n)` reads past the end of the array `src`: the
array has fewer than `n` characters and none of them is NUL. -/
def reads_past (src : List Cell) (n : Nat) : Bool :=
  decide (src.length < n ∧ (some 0 : Cell) ∉ src)

/-! ## `libcurl_ex6.cpp`: the accumulating callback -/

namespace libcurl_ex6

/-- The struct `MyCustomStruct`; a null pointer is `none`. -/
structure MyCustomStruct where
  url : Option String := none
  size : Nat := 0
  response : Option (List Cell) := none
  deriving DecidableEq

/-- The callback `write_data(buffer, size, nmemb, userp)` of `libcurl_ex6.cpp`:
the value returned and the struct behind `userp` after the call, for a call
that obtains its storage; `write_data_call` below says when it does. -/
def write_data (buffer : Option (List Byte)) (size nmemb : Nat)
    (userp : Option MyCustomStruct) : Nat × Option MyCustomStruct :=
  let _ := size
  match buffer, userp with
  | some buf, some pMyStruct =>
    if nmemb ≠ 0 then
      let response : List Cell :=
        match pMyStruct.response with
        | none =>
          strncpy (new_char ((nmemb + 1) % SIZE_T_MOD)) 0 (cells buf) nmemb
        | some oldResp =>
          let fresh := new_char ((pMyStruct.size + nmemb + 1) % SIZE_T_MOD)
          let copied := strncpy fresh 0 oldResp pMyStruct.size
          strncpy copied pMyStruct.size (cells buf) nmemb
      let size' := (pMyStruct.size + nmemb) % UINT_MOD
      (nmemb, some { pMyStruct with
        size := size', response := some (response.set size' (some NEWLINE)) })
    else (nmemb, userp)
  | _, _ => (nmemb, userp)

/-- One callback invocation as the transfer engine makes it: the chunk `c`
with `size = 1` and `nmemb` its length, on the struct `s`. -/
def deliver (s : MyCustomStruct) (c : List Byte) : MyCustomStruct :=
  match (write_data (some c) 1 c.length (some s)).2 with
  | some s' => s'
  | none => s

/-- The chunks of a transfer delivered in order. -/
def deliver_all (chunks : List (List Byte)) (s : MyCustomStruct) : MyCustomStruct :=
  chunks.foldl deliver s

/-- The first `size` characters of the response buffer (none for a null one). -/
def held (s : MyCustomStruct) : List Cell :=
  match s.response with
  | some r => r.take s.size
  | none => []

/-- The way the call `write_data(buffer, size, nmemb, userp)` of
`libcurl_ex6.cpp` ends under the storage limits `lim`.  Past the guard it asks `new` for
`nmemb + 1` characters (`size + nmemb + 1` when a response is held), computed
in `size_t`; the call goes on only when that array is provided, and is defined
only when the copies and the final newline stay inside it and the copies do
not read past `buffer` or the old response.  It then returns what `write_data`
gives. -/
def write_data_call (lim : Limits) (buffer : Option (List Byte)) (size nmemb : Nat)
    (userp : Option MyCustomStruct) : Ended (Option MyCustomStruct) :=
  let done := write_data buffer size nmemb userp
  match buffer, userp with
  | some buf, some pMyStruct =>
    if nmemb ≠ 0 then
      let kept : Nat :=
        match pMyStruct.response with
        | none => 0
        | some _ => pMyStruct.size
      let request := (kept + nmemb + 1) % SIZE_T_MOD
      let size' := (pMyStruct.size + nmemb) % UINT_MOD
      if lim.heap < request then .bad_alloc
      else if request < kept + nmemb ∨ request ≤ size' then .undefined
      else if reads_past (cells buf) nmemb then .undefined
      else
        match pMyStruct.response with
        | none => .returned done.1 done.2
        | some oldResp =>
          if reads_past oldResp pMyStruct.size then .undefined
          else .returned done.1 done.2
    else .returned done.1 done.2
  | _, _ => .returned done.1 done.2

/-- One callback invocation by the transfer engine under the limits `lim`:
the struct after it, or nothing when the call does not return. -/
def deliver_call (lim : Limits) (s : MyCustomStruct) (c : List Byte) : Option MyCustomStruct :=
  match write_data_call lim (some c) 1 c.length (some s) with
  | .returned _ (some s') => some s'
  | _ => none

/-- The chunks of a transfer delivered in order under the limits `lim`, up to
the first call that does not return. -/
def perform_chunks (lim : Limits) : List (List Byte) → MyCustomStruct → Option MyCustomStruct
  | [], s => some s
  | c :: rest, s =>
    match deliver_call lim s c with
    | some s' => perform_chunks lim rest s'
    | none => none

end libcurl_ex6

/-! ## `libcurl_ex4.cpp` and `libcurl_ex3.cpp`: the earlier callbacks -/

namespace libcurl_ex4

/-- The struct `MyCustomStruct` of `libcurl_ex4.cpp`. -/
structure MyCustomStruct where
  url : Option String := none
  size : Nat := 0
  response : Option (List Cell) := none
  deriving DecidableEq

/-- The callback `write_data` of `libcurl_ex4.cpp`: the value returned and the
struct behind `userp` after the call (the console lines are left out), for a
call that obtains its storage; `write_data_call` below says when it does. -/
def write_data (buffer : Option (List Byte)) (size nmemb : Nat)
    (userp : Option MyCustomStruct) : Nat × Option MyCustomStruct :=
  let _ := size
  match buffer, userp with
  | some buf, some pMyStruct =>
    if nmemb ≠ 0 then
      let response := strncpy (new_char ((nmemb + 1) % SIZE_T_MOD)) 0 (cells buf) nmemb
      let response := response.set nmemb (some NEWLINE)
      (nmemb, some { pMyStruct with response := some response, size := nmemb % UINT_MOD })
    else (nmemb, userp)
  | _, _ => (nmemb, userp)

/-- One callback invocation as the transfer engine makes it: the chunk `c`
with `size = 1` and `nmemb` its length, on the struct `s`. -/
def deliver (s : MyCustomStruct) (c : List Byte) : MyCustomStruct :=
  match (write_data (some c) 1 c.length (some s)).2 with
  | some s' => s'
  | none => s

/-- The chunks of a transfer delivered in order. -/
def deliver_all (chunks : List (List Byte)) (s : MyCustomStruct) : MyCustomStruct :=
  chunks.foldl deliver s

/-- The first `size` characters of the response buffer (none for a null one). -/
def held (s : MyCustomStruct) : List Cell :=
  match s.response with
  | some r => r.take s.size
  | none => []

/-- The way the call `write_data(buffer, size, nmemb, userp)` of
`libcurl_ex4.cpp` ends under the storage limits `lim`.  Past the guard it asks `new` for
`nmemb + 1` characters, computed in `size_t`; the call goes on only when that
array is provided, and is defined only when the copy and the newline at index
`nmemb` stay inside it and the copy does not read past `buffer`.  It then
returns what `write_data` gives. -/
def write_data_call (lim : Limits) (buffer : Option (List Byte)) (size nmemb : Nat)
    (userp : Option MyCustomStruct) : Ended (Option MyCustomStruct) :=
  let done := write_data buffer size nmemb userp
  match buffer, userp with
  | some buf, some _ =>
    if nmemb ≠ 0 then
      let request := (nmemb + 1) % SIZE_T_MOD
      if lim.heap < request then .bad_alloc
      else if request ≤ nmemb then .undefined
      else if reads_past (cells buf) nmemb then .undefined
      else .returned done.1 done.2
    else .returned done.1 done.2
  | _, _ => .returned done.1 done.2

/-- One callback invocation by the transfer engine under the limits `lim`:
the struct after it, or nothing when the call does not return. -/
def deliver_call (lim : Limits) (s : MyCustomStruct) (c : List Byte) : Option MyCustomStruct :=
  match write_data_call lim (some c) 1 c.length (some s) with
  | .returned _ (some s') => some s'
  | _ => none

/-- The chunks of a transfer delivered in order under the limits `lim`, up to
the first call that does not return. -/
def perform_chunks (lim : Limits) : List (List Byte) → MyCustomStruct → Option MyCustomStruct
  | [], s => some s
  | c :: rest, s =>
    match deliver_call lim s c with
    | some s' => perform_chunks lim rest s'
    | none => none

end libcurl_ex4

namespace libcurl_ex3

/-- The callback `write_data` of `libcurl_ex3.cpp`: the value returned and the
local array `myBuf` it shows on the console, when it shows one, for a call
whose array fits the stack; `write_data_call` below says when it does. -/
def write_data (buffer : Option (List Byte)) (size nmemb : Nat)
    (userp : Option Unit) : Nat × Option (List Cell) :=
  let _ := size
  let _ := userp
  match buffer with
  | some buf =>
    if nmemb ≠ 0 then
      let myBuf : List Cell := List.replicate ((nmemb + 1) % SIZE_T_MOD) (some 0)
      (nmemb, some (strncpy myBuf 0 (cells buf) nmemb))
    else (nmemb, none)
  | none => (nmemb, none)

/-- The way the call `write_data(buffer, size, nmemb, userp)` of
`libcurl_ex3.cpp` ends under the storage limits `lim`.  Past the guard its local array `myBuf`
has `nmemb + 1` characters, computed in `size_t`; the call goes on only when
the stack holds that array, and is defined only when the copy stays inside it
and does not read past `buffer`.  It then returns what `write_data` gives. -/
def write_data_call (lim : Limits) (buffer : Option (List Byte)) (size nmemb : Nat)
    (userp : Option Unit) : Ended (Option (List Cell)) :=
  let done := write_data buffer size nmemb userp
  match buffer with
  | some buf =>
    if nmemb ≠ 0 then
      let length := (nmemb + 1) % SIZE_T_MOD
      if lim.stack < length then .stack_overflow
      else if length ≤ nmemb then .undefined
      else if reads_past (cells buf) nmemb then .undefined
      else .returned done.1 done.2
    else .returned done.1 done.2
  | none => .returned done.1 done.2

end libcurl_ex3

/-! ## Property trees

`boost::property_tree::ptree` as far as the extraction uses it: a node holds a
data string and an ordered list of keyed children; array elements are children
with the empty key.  A path such as `properties.route_name` is the list of its
fragments, and a fragment selects the first child with that key. -/

/-- What can be thrown during parsing and extraction. -/
inductive Thrown where
  | message (errMsg : String)
  | ptree_bad_path (path : List String)
  | ptree_bad_data (data : String)
  | json_parser_error
  | logic_error
  deriving DecidableEq, Repr

deriving instance DecidableEq for Except

/-- A property tree node. -/
inductive ptree where
  | node (data : String) (children : List (String × ptree))

namespace ptree

/-- The data string of a node. -/
def data : ptree → String
  | node d _ => d

/-- The keyed children of a node, in order. -/
def children : ptree → List (String × ptree)
  | node _ c => c

/-- The number of children, `size()`. -/
def size (t : ptree) : Nat := t.children.length

/-- The first child with the given key, `find(key)`. -/
def find (t : ptree) (key : String) : Option ptree :=
  match t.children.find? (fun kv => kv.1 = key) with
  | some kv => some kv.2
  | none => none

/-- Follow a path fragment by fragment, `walk_path`. -/
def walk_path : List String → ptree → Option ptree
  | [], t => some t
  | fragment :: p, t =>
    match t.find fragment with
    | none => none
    | some el => walk_path p el

/-- The member `get_child(path)`: throws `ptree_bad_path` when the path is missing. -/
def get_child (t : ptree) (path : List String) : Except Thrown ptree :=
  match t.walk_path path with
  | some c => .ok c
  | none => .error (.ptree_bad_path path)

end ptree

/-- The stream translators behind `get_value<int>` and `get_value<double>`:
external library code, taken as parameters.  `D` stands for `double`. -/
structure Translators (D : Type) where
  to_int : String → Option Int
  to_double : String → Option D

namespace ptree

variable {D : Type}

/-- The member `get_value<int>()`: throws `ptree_bad_data` when the data does not convert. -/
def get_value_int (tr : Translators D) (t : ptree) : Except Thrown Int :=
  match tr.to_int t.data with
  | some v => .ok v
  | none => .error (.ptree_bad_data t.data)

/-- The member `get_value<double>()`. -/
def get_value_double (tr : Translators D) (t : ptree) : Except Thrown D :=
  match tr.to_double t.data with
  | some v => .ok v
  | none => .error (.ptree_bad_data t.data)

/-- The member `get<string>(path)`: the data of the child at `path`. -/
def get_string (t : ptree) (path : List String) : Except Thrown String :=
  match t.get_child path with
  | .ok c => .ok c.data
  | .error e => .error e

/-- The member `get<int>(path)`. -/
def get_int (tr : Translators D) (t : ptree) (path : List String) : Except Thrown Int :=
  match t.get_child path with
  | .ok c => c.get_value_int tr
  | .error e => .error e

end ptree

/-! ## `libcurl_ex6.cpp`: extraction and `main` -/

namespace libcurl_ex6

variable {D : Type}

/-- One line of bus information written to the console. -/
structure BusInfo (D : Type) where
  busName : String
  busID : Int
  longitude : D
  latitude : D
  deriving DecidableEq, Repr

/-- The body of the loop of `PrintTTCVehicleInfo` for one child `featVal` of
`features`: the line it prints, or what it throws.  `size() != 2` is the
failure of the match on two children, whose first is `front()` and whose
second is `back()`. -/
def feature_body (tr : Translators D) (featVal : String × ptree) : Except Thrown (BusInfo D) :=
  if featVal.1 ≠ "" then
    .error (.message "\"features\" child node has a name")
  else
    match featVal.2.get_string ["properties", "route_name"] with
    | .error e => .error e
    | .ok busName =>
      match featVal.2.get_int tr ["properties", "vehicle_id"] with
      | .error e => .error e
      | .ok busID =>
        match featVal.2.get_child ["geometry", "coordinates"] with
        | .error e => .error e
        | .ok coordinates =>
          match coordinates.children with
          | [front, back] =>
            match front.2.get_value_double tr with
            | .error e => .error e
            | .ok longitude =>
              match back.2.get_value_double tr with
              | .error e => .error e
              | .ok latitude => .ok ⟨busName, busID, longitude, latitude⟩
          | _ => .error (.message "Coordinates node does not contain 2 items")

/-- The loop `BOOST_FOREACH` over the children of `features`: `printed` holds
the lines already on the console; the loop ends at the first throw. -/
def foreach_feature (tr : Translators D) :
    List (String × ptree) → List (BusInfo D) → List (BusInfo D) × Except Thrown Unit
  | [], printed => (printed, .ok ())
  | featVal :: rest, printed =>
    match feature_body tr featVal with
    | .error e => (printed, .error e)
    | .ok line => foreach_feature tr rest (printed ++ [line])

/-- The function `PrintTTCVehicleInfo(ptRoot)`: the lines printed, and whether
it returned or threw. -/
def PrintTTCVehicleInfo (tr : Translators D) (ptRoot : ptree) :
    List (BusInfo D) × Except Thrown Unit :=
  match ptRoot.get_child ["features"] with
  | .error e => ([], .error e)
  | .ok features => foreach_feature tr features.children []

/-- The child `featVal` of `features` is an unnamed element carrying the
fields of `line`: the data at `properties.route_name` is the name, the data at
`properties.vehicle_id` converts to the identifier, and the node at
`geometry.coordinates` has exactly two children, whose data convert to the
longitude and to the latitude. -/
def well_formed (tr : Translators D) (featVal : String × ptree) (line : BusInfo D) : Prop :=
  featVal.1 = "" ∧
  (∃ n, featVal.2.walk_path ["properties", "route_name"] = some n ∧ n.data = line.busName) ∧
  (∃ n, featVal.2.walk_path ["properties", "vehicle_id"] = some n ∧
    tr.to_int n.data = some line.busID) ∧
  (∃ c front back, featVal.2.walk_path ["geometry", "coordinates"] = some c ∧
    c.children = [front, back] ∧
    tr.to_double front.2.data = some line.longitude ∧
    tr.to_double back.2.data = some line.latitude)

end libcurl_ex6

/-! ## The `main` functions

The transfer library is external: its outcomes are parameters.  A `CURLcode` is
a number, `CURLE_OK` being `0`.  A run of `main` is described by the library
calls it makes, in order, and by how it ends.  The write callbacks run inside
`curl_easy_perform`, once per chunk, under the storage limits of the run. -/

namespace libcurl_ex1

end libcurl_ex1

namespace libcurl_ex2

end libcurl_ex2

namespace libcurl_ex3

end libcurl_ex3

namespace libcurl_ex4

end libcurl_ex4

namespace libcurl_ex6

variable {D : Type}

end libcurl_ex6

/-! ## A concrete translator

Decimal integers, and numbers kept as their text, to instantiate the
translators at examples. -/

namespace Sample

/-- The value of a string of decimal digits, read after the digits `acc`. -/
def digits : List Char → Nat → Option Nat
  | [], acc => some acc
  | c :: rest, acc =>
    if '0' ≤ c ∧ c ≤ '9' then digits rest (10 * acc + (c.toNat - '0'.toNat)) else none

/-- A decimal integer with an optional minus sign. -/
def to_int (s : String) : Option Int :=
  match s.data with
  | [] => none
  | '-' :: c :: rest => (digits (c :: rest) 0).map (fun n => - (n : Int))
  | c :: rest => (digits (c :: rest) 0).map (fun n => (n : Int))

/-- Translators reading decimal integers and keeping a number as its text. -/
def translators : Translators String where
  to_int := to_int
  to_double := fun s => if s = "" then none else some s

/-- A leaf holding `d`. -/
def leaf (d : String) : ptree := .node d []

/-- A JSON array of leaves: unnamed children. -/
def array (ds : List String) : ptree := .node "" (ds.map fun d => ("", leaf d))

/-- The tree of a GeoJSON feature
`{properties:{route_name,vehicle_id},geometry:{coordinates:[...]}}`. -/
def feature (route_name vehicle_id : String) (coordinates : List String) : ptree :=
  .node "" [
    ("properties", .node "" [("route_name", leaf route_name), ("vehicle_id", leaf vehicle_id)]),
    ("geometry", .node "" [("coordinates", array coordinates)])]

/-- The tree of `{features:[...]}` with the given keyed children of `features`. -/
def root (features : List (String × ptree)) : ptree :=
  .node "" [("features", .node "" features)]

/-- The tree of `{features:[{route_name:"504",vehicle_id:101,coordinates:[-79.4,43.7]}]}`:
the fields are direct children of the array element. -/
def flat_504 : ptree :=
  root [("", .node "" [("route_name", leaf "504"), ("vehicle_id", leaf "101"),
    ("coordinates", array ["-79.4", "43.7"])])]

/-- The tree of
`{features:[{properties:{route_name:"504",vehicle_id:101},geometry:{coordinates:[-79.4,43.7]}}]}`. -/
def nested_504 : ptree :=
  root [("", feature "504" "101" ["-79.4", "43.7"])]

/-- Two well-formed unnamed elements. -/
def two_buses : List (String × ptree) :=
  [("", feature "504" "101" ["-79.4", "43.7"]), ("", feature "29" "8000" ["-79.5", "43.8"])]

/-- A well-formed unnamed element followed by an element with the label `stop`. -/
def labelled_second : List (String × ptree) :=
  [("", feature "504" "101" ["-79.4", "43.7"]), ("stop", feature "29" "8000" ["-79.5", "43.8"])]

/-- A well-formed unnamed element followed by one with three coordinates. -/
def three_coordinates_second : List (String × ptree) :=
  [("", feature "504" "101" ["-79.4", "43.7"]), ("", feature "29" "8000" ["-79.5", "43.8", "0"])]

/-- An unnamed element with one coordinate and no `properties` child. -/
def one_coordinate_only : ptree :=
  .node "" [("geometry", .node "" [("coordinates", array ["-79.4"])])]

end Sample

/-! ## Lemmas on `strncpy` and `store` -/

theorem cells_length (l : List Byte) : (cells l).length = l.length := by
  unfold cells
  exact List.length_map _ _

theorem strncpy_chars_length (src : List Cell) (n : Nat) :
    (strncpy_chars src n).length = n := by
  induction n generalizing src with
  | zero => cases src <;> simp [strncpy_chars]
  | succ n ih =>
    cases src with
    | nil => simp [strncpy_chars, ih]
    | cons c rest =>
      by_cases h : c = some 0 <;> simp [strncpy_chars, h, ih]

theorem strncpy_chars_cells (l : List Byte) (rest : List Cell) (h0 : (0 : Byte) ∉ l) :
    strncpy_chars (cells l ++ rest) l.length = cells l := by
  induction l with
  | nil => cases rest <;> simp [cells, strncpy_chars]
  | cons b l ih =>
    have hb : b ≠ 0 := fun h => h0 (by simp [h])
    have hl : (0 : Byte) ∉ l := fun h => h0 (by simp [h])
    have ih' := ih hl
    simp only [cells] at ih'
    simp [cells, strncpy_chars, hb, ih']

theorem strncpy_chars_of_take (r : List Cell) (old : List Byte) (n : Nat)
    (hold : r.take n = cells old) (hlen : old.length = n) (h0 : (0 : Byte) ∉ old) :
    strncpy_chars r n = cells old := by
  have hr : r = cells old ++ r.drop n := by
    conv_lhs => rw [← List.take_append_drop n r, hold]
  rw [hr, ← hlen]
  exact strncpy_chars_cells old _ h0

theorem store_append (p m q x : List Cell) (h : x.length = m.length) :
    store (p ++ (m ++ q)) p.length x = p ++ (x ++ q) := by
  have hd : (p ++ (m ++ q)).drop (p.length + x.length) = q := by
    rw [h, ← List.length_append, ← List.append_assoc]
    exact List.drop_left _ _
  have ht : (p ++ (m ++ q)).take p.length = p := List.take_left _ _
  unfold store
  rw [hd, ht, List.append_assoc]
  apply List.take_of_length_le
  rw [List.length_append, List.length_append, List.length_append, List.length_append, h]

theorem store_new_char (x : List Cell) (k : Nat) :
    store (new_char (x.length + k)) 0 x = x ++ new_char k := by
  have e : new_char (x.length + k) = new_char x.length ++ new_char k :=
    List.replicate_add _ _ _
  rw [e]
  exact store_append [] (new_char x.length) (new_char k) x (by simp [new_char])

/-! ## One delivery of `libcurl_ex6.cpp`'s callback -/

namespace libcurl_ex6

theorem deliver_nil (s : MyCustomStruct) : deliver s [] = s := by
  simp [deliver, write_data]

theorem deliver_size (s : MyCustomStruct) (c : List Byte) (hc : c.length ≠ 0) :
    (deliver s c).size = (s.size + c.length) % UINT_MOD := by
  simp [deliver, write_data, hc]

theorem deliver_first (s : MyCustomStruct) (c : List Byte) (hr : s.response = none)
    (hs : s.size = 0) (hc : c ≠ []) (hsz : c.length < UINT_MOD) :
    deliver s c = { s with
      size := c.length,
      response := some (strncpy_chars (cells c) c.length ++ [some NEWLINE]) } := by
  have hpos : c.length ≠ 0 := by simpa using hc
  have hU : c.length % UINT_MOD = c.length := Nat.mod_eq_of_lt hsz
  have hS : (c.length + 1) % SIZE_T_MOD = c.length + 1 := by
    apply Nat.mod_eq_of_lt
    norm_num [SIZE_T_MOD, UINT_MOD] at *
    omega
  have hst : strncpy (new_char (c.length + 1)) 0 (cells c) c.length
      = strncpy_chars (cells c) c.length ++ [none] := by
    have h := store_new_char (strncpy_chars (cells c) c.length) 1
    rw [strncpy_chars_length] at h
    simpa [strncpy, new_char] using h
  have hset : (strncpy_chars (cells c) c.length ++ [none]).set c.length (some NEWLINE)
      = strncpy_chars (cells c) c.length ++ [some NEWLINE] := by
    have hl := strncpy_chars_length (cells c) c.length
    rw [List.set_append_right _ _ (by omega)]
    simp [hl]
  simp only [deliver, write_data, hr, hs, hpos, ne_eq, not_false_eq_true, if_true,
    Nat.zero_add, hU, hS, hst, hset]

theorem deliver_next (s : MyCustomStruct) (r : List Cell) (old c : List Byte)
    (hr : s.response = some r) (hold : r.take s.size = cells old)
    (hlen : old.length = s.size) (h0 : (0 : Byte) ∉ old) (hc : c ≠ [])
    (hsz : s.size + c.length < UINT_MOD) :
    deliver s c = { s with
      size := s.size + c.length,
      response := some (cells old ++ (strncpy_chars (cells c) c.length ++ [some NEWLINE])) } := by
  have hpos : c.length ≠ 0 := by simpa using hc
  have hU : (s.size + c.length) % UINT_MOD = s.size + c.length := Nat.mod_eq_of_lt hsz
  have hS : (s.size + c.length + 1) % SIZE_T_MOD = s.size + c.length + 1 := by
    apply Nat.mod_eq_of_lt
    norm_num [SIZE_T_MOD, UINT_MOD] at *
    omega
  have hcl : (cells old).length = s.size := by simp [cells, hlen]
  have hnl := strncpy_chars_length (cells c) c.length
  have hcopy : strncpy (new_char (s.size + c.length + 1)) 0 r s.size
      = cells old ++ (new_char c.length ++ [none]) := by
    have h := store_new_char (cells old) (c.length + 1)
    rw [hcl, ← Nat.add_assoc] at h
    have e : new_char (c.length + 1) = new_char c.length ++ [none] :=
      List.replicate_add _ _ _
    rw [strncpy, strncpy_chars_of_take r old s.size hold hlen h0, h, e]
  have happ : strncpy (cells old ++ (new_char c.length ++ [none])) s.size (cells c) c.length
      = cells old ++ (strncpy_chars (cells c) c.length ++ [none]) := by
    have h := store_append (cells old) (new_char c.length) [none]
      (strncpy_chars (cells c) c.length) (by simp [new_char, hnl])
    rw [hcl] at h
    exact h
  have hset : (cells old ++ (strncpy_chars (cells c) c.length ++ [none])).set
      (s.size + c.length) (some NEWLINE)
      = cells old ++ (strncpy_chars (cells c) c.length ++ [some NEWLINE]) := by
    rw [List.set_append_right _ _ (by omega), List.set_append_right _ _ (by omega)]
    simp [hcl, hnl]
  simp only [deliver, write_data, hr, hpos, ne_eq, not_false_eq_true, if_true,
    hU, hS, hcopy, happ, hset]

theorem strncpy_chars_text (c : List Byte) (h0 : (0 : Byte) ∉ c) :
    strncpy_chars (cells c) c.length = cells c := by
  have h := strncpy_chars_cells c [] h0
  simpa using h

/-- Delivering a chunk without NUL to a struct that holds the NUL-free text
`bytes` followed by a newline makes it hold `bytes ++ c` in the same way. -/
theorem deliver_text (s : MyCustomStruct) (bytes c : List Byte)
    (hsize : s.size = bytes.length)
    (hresp : s.response = if bytes = [] then none else some (cells bytes ++ [some NEWLINE]))
    (hb : (0 : Byte) ∉ bytes) (hc : (0 : Byte) ∉ c)
    (hsz : bytes.length + c.length < UINT_MOD) :
    (deliver s c).size = (bytes ++ c).length ∧
    (deliver s c).response =
      (if bytes ++ c = [] then none else some (cells (bytes ++ c) ++ [some NEWLINE])) ∧
    (deliver s c).url = s.url := by
  by_cases hcn : c = []
  · subst hcn
    simp [deliver_nil, hsize, hresp]
  · by_cases hbn : bytes = []
    · subst hbn
      have hr : s.response = none := by simpa using hresp
      have hs : s.size = 0 := by simpa using hsize
      have hlt : c.length < UINT_MOD := by simpa using hsz
      rw [deliver_first s c hr hs hcn hlt, strncpy_chars_text c hc]
      simp [hcn]
    · have hr : s.response = some (cells bytes ++ [some NEWLINE]) := by simpa [hbn] using hresp
      have hold : (cells bytes ++ [some NEWLINE]).take s.size = cells bytes := by
        rw [hsize]
        have : (cells bytes).length = bytes.length := by simp [cells]
        rw [← this]
        exact List.take_left _ _
      have hlt : s.size + c.length < UINT_MOD := by rw [hsize]; exact hsz
      rw [deliver_next s _ bytes c hr hold hsize.symm hb hcn hlt, strncpy_chars_text c hc]
      simp [hcn, hsize, cells]

theorem deliver_all_text (chunks : List (List Byte)) (s : MyCustomStruct) (bytes : List Byte)
    (hsize : s.size = bytes.length)
    (hresp : s.response = if bytes = [] then none else some (cells bytes ++ [some NEWLINE]))
    (hb : (0 : Byte) ∉ bytes) (hc : ∀ c ∈ chunks, (0 : Byte) ∉ c)
    (hsz : bytes.length + (chunks.map List.length).sum < UINT_MOD) :
    (deliver_all chunks s).size = (bytes ++ chunks.flatten).length ∧
    (deliver_all chunks s).response =
      (if bytes ++ chunks.flatten = [] then none
       else some (cells (bytes ++ chunks.flatten) ++ [some NEWLINE])) ∧
    (deliver_all chunks s).url = s.url := by
  induction chunks generalizing s bytes with
  | nil => simpa [deliver_all] using ⟨hsize, hresp⟩
  | cons c rest ih =>
    have hc0 : (0 : Byte) ∉ c := hc c (by simp)
    have hrest : ∀ d ∈ rest, (0 : Byte) ∉ d := fun d hd => hc d (by simp [hd])
    simp only [List.map_cons, List.sum_cons] at hsz
    obtain ⟨h1, h2, h3⟩ := deliver_text s bytes c hsize hresp hb hc0 (by omega)
    have hb' : (0 : Byte) ∉ bytes ++ c := by simp [hb, hc0]
    have := ih (deliver s c) (bytes ++ c) h1 h2 hb' hrest (by simp; omega)
    simpa [deliver_all, h3] using this

end libcurl_ex6

/-! ## Properties of the callbacks -/

/-- C1, refuted as stated: a chunk `A NUL B` delivered to a fresh struct leaves
`A NUL NUL` in the buffer, because `strncpy` stops copying at the NUL. -/
theorem write_data_drops_bytes_after_nul :
    (libcurl_ex6.deliver_all [[65, 0, 66]] {}).size = 3 ∧
    libcurl_ex6.held (libcurl_ex6.deliver_all [[65, 0, 66]] {})
      = [some 65, some 0, some 0] ∧
    libcurl_ex6.held (libcurl_ex6.deliver_all [[65, 0, 66]] {})
      ≠ cells (List.flatten [[65, 0, 66]]) := by
  decide

/-- The field `size` is an `unsigned int`: after one chunk of `2^32` bytes on a
fresh struct it is `0`, not the chunk's length. -/
theorem write_data_size_wraps :
    (libcurl_ex6.deliver {} (List.replicate (2 ^ 32) 65)).size = 0 := by
  have hlen : (List.replicate (2 ^ 32) (65 : Byte)).length = 2 ^ 32 := List.length_replicate _ _
  rw [libcurl_ex6.deliver_size _ _ (by rw [hlen]; norm_num), hlen]
  norm_num [UINT_MOD]

/-- C1, amended: for every sequence of chunks free of NUL bytes whose lengths
sum to less than `2^32`, delivered in order to `write_data` of `libcurl_ex6.cpp`
from a fresh struct, the final `size` is the sum of the lengths and the first
`size` bytes of the final buffer are the concatenation of the chunks. -/
theorem write_data_accumulates (chunks : List (List Byte)) (url : Option String)
    (hnul : ∀ c ∈ chunks, (0 : Byte) ∉ c)
    (hsum : (chunks.map List.length).sum < UINT_MOD) :
    (libcurl_ex6.deliver_all chunks { url := url }).size = (chunks.map List.length).sum ∧
    libcurl_ex6.held (libcurl_ex6.deliver_all chunks { url := url })
      = cells chunks.flatten := by
  obtain ⟨h1, h2, _⟩ := libcurl_ex6.deliver_all_text chunks { url := url } [] rfl rfl
    (by simp) hnul (by simpa using hsum)
  simp only [List.nil_append] at h1 h2
  refine ⟨by rw [h1, List.length_flatten], ?_⟩
  unfold libcurl_ex6.held
  rw [h2, h1]
  by_cases hf : chunks.flatten = []
  · simp [hf, cells]
  · simp only [hf, if_false]
    rw [← cells_length chunks.flatten]
    exact List.take_left _ _

/-- Witness of C1 (amended): three chunks, the middle one empty. -/
theorem write_data_accumulates_witness :
    (libcurl_ex6.deliver_all [[65, 66], [], [67]] {}).size = 3 ∧
    libcurl_ex6.held (libcurl_ex6.deliver_all [[65, 66], [], [67]] {})
      = [some 65, some 66, some 67] := by
  have h := write_data_accumulates [[65, 66], [], [67]] none (by decide) (by decide)
  simpa [cells] using h

/-- C2, refuted as stated: the state reached by the chunks `A NUL` and `B`
holds `A NUL B`; after the next call with `C` the first three bytes are
`A NUL NUL`. -/
theorem write_data_loses_held_bytes_after_nul :
    (libcurl_ex6.deliver_all [[65, 0], [66]] {}).response
      = some [some 65, some 0, some 66, some 10] ∧
    (libcurl_ex6.deliver_all [[65, 0], [66]] {}).size = 3 ∧
    (libcurl_ex6.deliver (libcurl_ex6.deliver_all [[65, 0], [66]] {}) [67]).response
      = some [some 65, some 0, some 0, some 67, some 10] := by
  decide

/-- C2, amended: in every state reached from the fresh one by chunks free of
NUL bytes and holding a non-null buffer, for every non-empty chunk `c` that
keeps the total length below `2^32`, the next `write_data` call of
`libcurl_ex6.cpp` leaves the first `size` (old value) bytes of the buffer as
they were; the characters `strncpy` copies from `c`, then the newline, lie
from offset `size` on. -/
theorem write_data_preserves_held (chunks : List (List Byte)) (url : Option String)
    (c : List Byte) (r : List Cell)
    (hnul : ∀ d ∈ chunks, (0 : Byte) ∉ d)
    (hr : (libcurl_ex6.deliver_all chunks { url := url }).response = some r)
    (hc : c ≠ [])
    (hsum : (chunks.map List.length).sum + c.length < UINT_MOD) :
    ∃ r', (libcurl_ex6.deliver (libcurl_ex6.deliver_all chunks { url := url }) c).response
        = some r' ∧
      r'.take (libcurl_ex6.deliver_all chunks { url := url }).size
        = r.take (libcurl_ex6.deliver_all chunks { url := url }).size ∧
      r'.drop (libcurl_ex6.deliver_all chunks { url := url }).size
        = strncpy_chars (cells c) c.length ++ [some NEWLINE] := by
  obtain ⟨h1, h2, _⟩ := libcurl_ex6.deliver_all_text chunks { url := url } [] rfl rfl
    (by simp) hnul (by simp; omega)
  simp only [List.nil_append] at h1 h2
  have hlen := cells_length chunks.flatten
  have h0 : (0 : Byte) ∉ chunks.flatten := by
    simp only [List.mem_flatten, not_exists, not_and]
    exact fun d hd => hnul d hd
  have hr' : r = cells chunks.flatten ++ [some NEWLINE] := by
    by_cases hf : chunks.flatten = []
    · rw [h2] at hr; simp [hf] at hr
    · rw [h2] at hr; simpa [hf] using hr.symm
  have hold : r.take (libcurl_ex6.deliver_all chunks { url := url }).size
      = cells chunks.flatten := by
    rw [hr', h1, ← hlen]
    exact List.take_left _ _
  have hsz : (libcurl_ex6.deliver_all chunks { url := url }).size + c.length < UINT_MOD := by
    rw [h1, List.length_flatten]; exact hsum
  refine ⟨_, by rw [libcurl_ex6.deliver_next _ r _ c hr hold h1.symm h0 hc hsz], ?_, ?_⟩
  · rw [hold, h1, ← hlen]
    exact List.take_left _ _
  · rw [h1, ← hlen]
    exact List.drop_left _ _

/-- Witness of C2 (amended): the state reached by `A` and `B`, then the chunk `C`. -/
theorem write_data_preserves_held_witness :
    ∃ r', (libcurl_ex6.deliver (libcurl_ex6.deliver_all [[65], [66]] {}) [67]).response
        = some r' ∧
      r'.take (libcurl_ex6.deliver_all [[65], [66]] {}).size
        = [some 65, some 66, some 10].take (libcurl_ex6.deliver_all [[65], [66]] {}).size ∧
      r'.drop (libcurl_ex6.deliver_all [[65], [66]] {}).size
        = strncpy_chars (cells [67]) [67].length ++ [some NEWLINE] :=
  write_data_preserves_held [[65], [66]] none [67] [some 65, some 66, some 10]
    (by decide) (by decide) (by decide) (by decide)

/-- C4: `write_data` of `libcurl_ex6.cpp` called with a chunk of length 0
leaves the struct as it was, in every state and for every buffer pointer. -/
theorem write_data_zero_length (buffer : Option (List Byte)) (size : Nat)
    (userp : Option libcurl_ex6.MyCustomStruct) :
    (libcurl_ex6.write_data buffer size 0 userp).2 = userp := by
  unfold libcurl_ex6.write_data
  cases buffer <;> cases userp <;> simp

/-- C8, at the failing input: after a fresh struct receives the chunk `A`, the
byte stored at index `size` of the response is the newline (10), not NUL, both
in `libcurl_ex4.cpp` and in `libcurl_ex6.cpp`; no NUL follows the data. -/
theorem write_data_terminator_is_newline :
    (libcurl_ex4.write_data (some [65]) 1 1 (some {})).2
      = some { size := 1, response := some [some 65, some NEWLINE] } ∧
    (libcurl_ex6.write_data (some [65]) 1 1 (some {})).2
      = some { size := 1, response := some [some 65, some NEWLINE] } ∧
    NEWLINE ≠ (0 : Byte) := by
  decide

/-! ## Properties of the extraction -/

namespace libcurl_ex6

variable {D : Type}

theorem feature_body_of_well_formed (tr : Translators D) (featVal : String × ptree)
    (line : BusInfo D) (h : well_formed tr featVal line) :
    feature_body tr featVal = .ok line := by
  obtain ⟨hk, ⟨n1, hn1, hd1⟩, ⟨n2, hn2, hd2⟩, ⟨c, front, back, hc, hch, hlon, hlat⟩⟩ := h
  cases line
  simp only at hd1 hd2 hlon hlat
  simp [feature_body, hk, ptree.get_string, ptree.get_int, ptree.get_child, hn1, hn2, hc,
    hch, ptree.get_value_int, ptree.get_value_double, hd1, hd2, hlon, hlat]

theorem foreach_feature_append (tr : Translators D) (pre rest : List (String × ptree))
    (lines printed : List (BusInfo D)) (h : List.Forall₂ (well_formed tr) pre lines) :
    foreach_feature tr (pre ++ rest) printed = foreach_feature tr rest (printed ++ lines) := by
  induction h generalizing printed with
  | nil => simp
  | cons hwf _ ih =>
    rw [List.cons_append, foreach_feature]
    simp only [feature_body_of_well_formed tr _ _ hwf]
    rw [ih, List.append_assoc]
    rfl

theorem PrintTTCVehicleInfo_of_features (tr : Translators D) (ptRoot features : ptree)
    (hf : ptRoot.find "features" = some features) :
    PrintTTCVehicleInfo tr ptRoot = foreach_feature tr features.children [] := by
  simp [PrintTTCVehicleInfo, ptree.get_child, ptree.walk_path, hf]

theorem PrintTTCVehicleInfo_of_well_formed (tr : Translators D) (ptRoot features : ptree)
    (lines : List (BusInfo D)) (hf : ptRoot.find "features" = some features)
    (hwf : List.Forall₂ (well_formed tr) features.children lines) :
    PrintTTCVehicleInfo tr ptRoot = (lines, .ok ()) := by
  rw [PrintTTCVehicleInfo_of_features tr ptRoot features hf]
  have h := foreach_feature_append tr features.children [] lines [] hwf
  simpa [foreach_feature] using h

theorem feature_body_named (tr : Translators D) (label : String) (child : ptree)
    (h : label ≠ "") :
    feature_body tr (label, child) = .error (.message "\"features\" child node has a name") := by
  simp [feature_body, h]

theorem feature_body_coordinates (tr : Translators D) (child n1 n2 c : ptree) (busID : Int)
    (h1 : child.walk_path ["properties", "route_name"] = some n1)
    (h2 : child.walk_path ["properties", "vehicle_id"] = some n2)
    (hid : tr.to_int n2.data = some busID)
    (hc : child.walk_path ["geometry", "coordinates"] = some c)
    (hsize : c.size ≠ 2) :
    feature_body tr ("", child)
      = .error (.message "Coordinates node does not contain 2 items") := by
  unfold ptree.size at hsize
  simp only [feature_body, ptree.get_string, ptree.get_int, ptree.get_child, h1, h2, hc,
    ptree.get_value_int, hid, ne_eq, not_true_eq_false, if_false]
  rcases hch : c.children with _ | ⟨a, _ | ⟨b, _ | ⟨d, rest⟩⟩⟩
  · rfl
  · rfl
  · rw [hch] at hsize
    exact absurd rfl hsize
  · rfl

end libcurl_ex6

/-- C5: when the `features` child of the tree has `N` unnamed elements, each
with a name at `properties.route_name`, an integer at `properties.vehicle_id`
and exactly two numbers under `geometry.coordinates`, `PrintTTCVehicleInfo`
returns normally and prints exactly the `N` lines of these elements, in array
order: name, identifier, first coordinate as longitude, second as latitude. -/
theorem PrintTTCVehicleInfo_well_formed {D : Type} (tr : Translators D)
    (ptRoot features : ptree) (lines : List (libcurl_ex6.BusInfo D))
    (hf : ptRoot.find "features" = some features)
    (hwf : List.Forall₂ (libcurl_ex6.well_formed tr) features.children lines) :
    libcurl_ex6.PrintTTCVehicleInfo tr ptRoot = (lines, .ok ()) ∧
    lines.length = features.size := by
  exact ⟨libcurl_ex6.PrintTTCVehicleInfo_of_well_formed tr ptRoot features lines hf hwf,
    hwf.length_eq.symm⟩

/-- Witness of C5: two well-formed elements give their two lines. -/
theorem PrintTTCVehicleInfo_well_formed_witness :
    libcurl_ex6.PrintTTCVehicleInfo Sample.translators (Sample.root Sample.two_buses)
      = ([⟨"504", 101, "-79.4", "43.7"⟩, ⟨"29", 8000, "-79.5", "43.8"⟩], .ok ()) ∧
    [(⟨"504", 101, "-79.4", "43.7"⟩ : libcurl_ex6.BusInfo String),
      ⟨"29", 8000, "-79.5", "43.8"⟩].length = (ptree.node "" Sample.two_buses).size :=
  PrintTTCVehicleInfo_well_formed Sample.translators (Sample.root Sample.two_buses)
    (.node "" Sample.two_buses) _ rfl
    (.cons ⟨rfl, ⟨Sample.leaf "504", rfl, rfl⟩, ⟨Sample.leaf "101", rfl, by decide⟩,
        ⟨Sample.array ["-79.4", "43.7"], ("", Sample.leaf "-79.4"), ("", Sample.leaf "43.7"),
          rfl, rfl, by decide, by decide⟩⟩
      (.cons ⟨rfl, ⟨Sample.leaf "29", rfl, rfl⟩, ⟨Sample.leaf "8000", rfl, by decide⟩,
        ⟨Sample.array ["-79.5", "43.8"], ("", Sample.leaf "-79.5"), ("", Sample.leaf "43.8"),
          rfl, rfl, by decide, by decide⟩⟩ .nil))

/-- C6, refuted as stated: with a well-formed element before the labelled one,
the line of the first element is printed before the message is thrown. -/
theorem PrintTTCVehicleInfo_prints_before_named_child :
    libcurl_ex6.PrintTTCVehicleInfo Sample.translators (Sample.root Sample.labelled_second)
      = ([⟨"504", 101, "-79.4", "43.7"⟩],
         .error (.message "\"features\" child node has a name")) ∧
    (libcurl_ex6.PrintTTCVehicleInfo Sample.translators
      (Sample.root Sample.labelled_second)).1 ≠ [] := by
  decide

/-- C6, amended: when an element of `features` carries a non-empty label and
the elements before it are well-formed unnamed elements, `PrintTTCVehicleInfo`
throws the message `"features" child node has a name`; the lines of the
elements before the labelled one have been printed by then, in array order,
and no line of the labelled element or of a later one. -/
theorem PrintTTCVehicleInfo_named_child {D : Type} (tr : Translators D)
    (ptRoot features : ptree) (pre post : List (String × ptree)) (label : String)
    (child : ptree) (lines : List (libcurl_ex6.BusInfo D))
    (hf : ptRoot.find "features" = some features)
    (hch : features.children = pre ++ (label, child) :: post)
    (hlabel : label ≠ "")
    (hwf : List.Forall₂ (libcurl_ex6.well_formed tr) pre lines) :
    libcurl_ex6.PrintTTCVehicleInfo tr ptRoot
      = (lines, .error (.message "\"features\" child node has a name")) := by
  rw [libcurl_ex6.PrintTTCVehicleInfo_of_features tr ptRoot features hf, hch,
    libcurl_ex6.foreach_feature_append tr pre _ lines [] hwf, libcurl_ex6.foreach_feature,
    libcurl_ex6.feature_body_named tr label child hlabel]
  rfl

/-- Witness of C6 (amended): a labelled element after a well-formed one. -/
theorem PrintTTCVehicleInfo_named_child_witness :
    libcurl_ex6.PrintTTCVehicleInfo Sample.translators (Sample.root Sample.labelled_second)
      = ([⟨"504", 101, "-79.4", "43.7"⟩],
         .error (.message "\"features\" child node has a name")) :=
  PrintTTCVehicleInfo_named_child Sample.translators _
    (.node "" Sample.labelled_second) [("", Sample.feature "504" "101" ["-79.4", "43.7"])] []
    "stop" (Sample.feature "29" "8000" ["-79.5", "43.8"]) _ rfl rfl (by decide)
    (.cons ⟨rfl, ⟨Sample.leaf "504", rfl, rfl⟩, ⟨Sample.leaf "101", rfl, by decide⟩,
        ⟨Sample.array ["-79.4", "43.7"], ("", Sample.leaf "-79.4"), ("", Sample.leaf "43.7"),
          rfl, rfl, by decide, by decide⟩⟩ .nil)

/-- C7, refuted as stated: an unnamed element whose coordinates array has one
item but which has no `properties` child makes the extraction throw
`ptree_bad_path`, not the message about coordinates. -/
theorem PrintTTCVehicleInfo_bad_path_before_coordinates :
    (Sample.one_coordinate_only.walk_path ["geometry", "coordinates"]).map ptree.size
      = some 1 ∧
    libcurl_ex6.PrintTTCVehicleInfo Sample.translators
      (Sample.root [("", Sample.one_coordinate_only)])
      = ([], .error (.ptree_bad_path ["properties", "route_name"])) ∧
    (libcurl_ex6.PrintTTCVehicleInfo Sample.translators
      (Sample.root [("", Sample.one_coordinate_only)])).2
      ≠ .error (.message "Coordinates node does not contain 2 items") := by
  decide

/-- C7, amended: when the elements of `features` before some element are
well-formed, and that element is unnamed, has a node at
`properties.route_name`, an integer at `properties.vehicle_id`, and a node at
`geometry.coordinates` whose number of children is not two, then
`PrintTTCVehicleInfo` throws the message
`Coordinates node does not contain 2 items`, after the lines of the elements
before it. -/
theorem PrintTTCVehicleInfo_coordinates {D : Type} (tr : Translators D)
    (ptRoot features : ptree) (pre post : List (String × ptree))
    (child n1 n2 c : ptree) (busID : Int) (lines : List (libcurl_ex6.BusInfo D))
    (hf : ptRoot.find "features" = some features)
    (hch : features.children = pre ++ ("", child) :: post)
    (hwf : List.Forall₂ (libcurl_ex6.well_formed tr) pre lines)
    (h1 : child.walk_path ["properties", "route_name"] = some n1)
    (h2 : child.walk_path ["properties", "vehicle_id"] = some n2)
    (hid : tr.to_int n2.data = some busID)
    (hc : child.walk_path ["geometry", "coordinates"] = some c)
    (hsize : c.size ≠ 2) :
    libcurl_ex6.PrintTTCVehicleInfo tr ptRoot
      = (lines, .error (.message "Coordinates node does not contain 2 items")) := by
  rw [libcurl_ex6.PrintTTCVehicleInfo_of_features tr ptRoot features hf, hch,
    libcurl_ex6.foreach_feature_append tr pre _ lines [] hwf, libcurl_ex6.foreach_feature,
    libcurl_ex6.feature_body_coordinates tr child n1 n2 c busID h1 h2 hid hc hsize]
  rfl

/-- Witness of C7 (amended): an element with three coordinates after a
well-formed one. -/
theorem PrintTTCVehicleInfo_coordinates_witness :
    libcurl_ex6.PrintTTCVehicleInfo Sample.translators
      (Sample.root Sample.three_coordinates_second)
      = ([⟨"504", 101, "-79.4", "43.7"⟩],
         .error (.message "Coordinates node does not contain 2 items")) :=
  PrintTTCVehicleInfo_coordinates Sample.translators _
    (.node "" Sample.three_coordinates_second)
    [("", Sample.feature "504" "101" ["-79.4", "43.7"])] []
    (Sample.feature "29" "8000" ["-79.5", "43.8", "0"]) (Sample.leaf "29") (Sample.leaf "8000")
    (Sample.array ["-79.5", "43.8", "0"]) 8000 _ rfl rfl
    (.cons ⟨rfl, ⟨Sample.leaf "504", rfl, rfl⟩, ⟨Sample.leaf "101", rfl, by decide⟩,
        ⟨Sample.array ["-79.4", "43.7"], ("", Sample.leaf "-79.4"), ("", Sample.leaf "43.7"),
          rfl, rfl, by decide, by decide⟩⟩ .nil)
    rfl rfl (by decide) rfl (by decide)

/-- C9, refuted as stated: on the tree whose array element has `route_name`,
`vehicle_id` and `coordinates` as direct children, the lookup of
`properties.route_name` throws `ptree_bad_path` and nothing is printed. -/
theorem PrintTTCVehicleInfo_flat_504 :
    libcurl_ex6.PrintTTCVehicleInfo Sample.translators Sample.flat_504
      = ([], .error (.ptree_bad_path ["properties", "route_name"])) ∧
    libcurl_ex6.PrintTTCVehicleInfo Sample.translators Sample.flat_504
      ≠ ([⟨"504", 101, "-79.4", "43.7"⟩], .ok ()) := by
  decide

/-- C9, amended: on the tree
`{features:[{properties:{route_name:"504",vehicle_id:101},geometry:{coordinates:[-79.4,43.7]}}]}`,
with translators that read `101`, `-79.4` and `43.7`, `PrintTTCVehicleInfo`
returns normally and prints exactly the one line with name `504`, identifier
101, longitude -79.4 and latitude 43.7. -/
theorem PrintTTCVehicleInfo_nested_504 {D : Type} (tr : Translators D) (lon lat : D)
    (hid : tr.to_int "101" = some 101)
    (hlon : tr.to_double "-79.4" = some lon)
    (hlat : tr.to_double "43.7" = some lat) :
    libcurl_ex6.PrintTTCVehicleInfo tr Sample.nested_504
      = ([⟨"504", 101, lon, lat⟩], .ok ()) := by
  exact libcurl_ex6.PrintTTCVehicleInfo_of_well_formed tr Sample.nested_504
    (.node "" [("", Sample.feature "504" "101" ["-79.4", "43.7"])]) [⟨"504", 101, lon, lat⟩] rfl
    (.cons ⟨rfl, ⟨Sample.leaf "504", rfl, rfl⟩, ⟨Sample.leaf "101", rfl, hid⟩,
        ⟨Sample.array ["-79.4", "43.7"], ("", Sample.leaf "-79.4"), ("", Sample.leaf "43.7"),
          rfl, rfl, hlon, hlat⟩⟩ .nil)

/-- Witness of C9 (amended), with translators that keep a number as its text. -/
theorem PrintTTCVehicleInfo_nested_504_witness :
    libcurl_ex6.PrintTTCVehicleInfo Sample.translators Sample.nested_504
      = ([⟨"504", 101, "-79.4", "43.7"⟩], .ok ()) :=
  PrintTTCVehicleInfo_nested_504 Sample.translators "-79.4" "43.7"
    (by decide) (by decide) (by decide)

/-! ## `libcurl_ex4.cpp` against `libcurl_ex6.cpp` -/

theorem exists_last_nonempty (chunks : List (List Byte)) (h : ∃ d ∈ chunks, d ≠ []) :
    ∃ pre c post, chunks = pre ++ c :: post ∧ c ≠ [] ∧ ∀ d ∈ post, d = [] := by
  induction chunks with
  | nil => simp at h
  | cons a rest ih =>
    by_cases hrest : ∃ d ∈ rest, d ≠ []
    · obtain ⟨pre, c, post, hch, hc, hpost⟩ := ih hrest
      exact ⟨a :: pre, c, post, by rw [hch]; rfl, hc, hpost⟩
    · have hall : ∀ d ∈ rest, d = [] := by
        intro d hd
        by_contra hne
        exact hrest ⟨d, hd, hne⟩
      have ha : a ≠ [] := by
        obtain ⟨d, hd, hne⟩ := h
        rcases List.mem_cons.mp hd with rfl | hd
        · exact hne
        · exact absurd (hall d hd) hne
      exact ⟨[], a, rest, rfl, ha, hall⟩

theorem sum_lengths_eq_zero (l : List (List Byte)) :
    (l.map List.length).sum = 0 ↔ ∀ d ∈ l, d = [] := by
  induction l with
  | nil => simp
  | cons a rest ih =>
    simp only [List.map_cons, List.sum_cons, List.mem_cons, forall_eq_or_imp, ← ih]
    constructor
    · intro h
      exact ⟨List.length_eq_zero.mp (by omega), by omega⟩
    · rintro ⟨ha, hr⟩
      rw [ha, hr]
      rfl

namespace libcurl_ex6

theorem deliver_all_size (chunks : List (List Byte)) (s : MyCustomStruct)
    (hs : s.size < UINT_MOD) :
    (deliver_all chunks s).size = (s.size + (chunks.map List.length).sum) % UINT_MOD := by
  induction chunks generalizing s with
  | nil => simpa [deliver_all] using (Nat.mod_eq_of_lt hs).symm
  | cons c rest ih =>
    have hM : 0 < UINT_MOD := by norm_num [UINT_MOD]
    by_cases hc : c.length = 0
    · have hnil : c = [] := List.length_eq_zero.mp hc
      have := ih s hs
      simpa [deliver_all, hnil, deliver_nil] using this
    · have hsz := deliver_size s c hc
      have hlt : (deliver s c).size < UINT_MOD := by rw [hsz]; exact Nat.mod_lt _ hM
      have := ih (deliver s c) hlt
      rw [hsz, Nat.mod_add_mod] at this
      simpa [deliver_all, Nat.add_assoc] using this

end libcurl_ex6

namespace libcurl_ex4

theorem ex4_deliver_nil (s : MyCustomStruct) : deliver s [] = s := by
  simp [deliver, write_data]

theorem ex4_deliver_size (s : MyCustomStruct) (c : List Byte) (hc : c.length ≠ 0) :
    (deliver s c).size = c.length % UINT_MOD := by
  simp [deliver, write_data, hc]

theorem deliver_all_nils (post : List (List Byte)) (s : MyCustomStruct)
    (hpost : ∀ d ∈ post, d = []) : deliver_all post s = s := by
  induction post with
  | nil => rfl
  | cons d rest ih =>
    have hd : d = [] := hpost d (by simp)
    have hr : ∀ e ∈ rest, e = [] := fun e he => hpost e (by simp [he])
    have := ih hr
    simpa [deliver_all, hd, ex4_deliver_nil] using this

theorem deliver_all_last (pre post : List (List Byte)) (c : List Byte) (s : MyCustomStruct)
    (hpost : ∀ d ∈ post, d = []) :
    deliver_all (pre ++ c :: post) s = deliver (deliver_all pre s) c := by
  have h := deliver_all_nils post (deliver (deliver_all pre s) c) hpost
  simpa [deliver_all, List.foldl_append] using h

theorem deliver_chunk (s : MyCustomStruct) (c : List Byte) (hc : c ≠ [])
    (hsz : c.length < UINT_MOD) :
    deliver s c = { s with
      size := c.length,
      response := some (strncpy_chars (cells c) c.length ++ [some NEWLINE]) } := by
  have hpos : c.length ≠ 0 := by simpa using hc
  have hU : c.length % UINT_MOD = c.length := Nat.mod_eq_of_lt hsz
  have hS : (c.length + 1) % SIZE_T_MOD = c.length + 1 := by
    apply Nat.mod_eq_of_lt
    norm_num [SIZE_T_MOD, UINT_MOD] at *
    omega
  have hst : strncpy (new_char (c.length + 1)) 0 (cells c) c.length
      = strncpy_chars (cells c) c.length ++ [none] := by
    have h := store_new_char (strncpy_chars (cells c) c.length) 1
    rw [strncpy_chars_length] at h
    simpa [strncpy, new_char] using h
  have hset : (strncpy_chars (cells c) c.length ++ [none]).set c.length (some NEWLINE)
      = strncpy_chars (cells c) c.length ++ [some NEWLINE] := by
    have hl := strncpy_chars_length (cells c) c.length
    rw [List.set_append_right _ _ (by omega)]
    simp [hl]
  simp only [deliver, write_data, hpos, ne_eq, not_false_eq_true, if_true, hU, hS, hst, hset]

end libcurl_ex4

/-- C11, refuted as stated: the single chunk `A NUL B` delivered to
`write_data` of `libcurl_ex4.cpp` gives `size = 3`, but the first three bytes
of the response are `A NUL NUL`, not the chunk's bytes. -/
theorem ex4_write_data_drops_bytes_after_nul :
    (libcurl_ex4.deliver_all [[65, 0, 66]] {}).size = 3 ∧
    libcurl_ex4.held (libcurl_ex4.deliver_all [[65, 0, 66]] {})
      = [some 65, some 0, some 0] ∧
    libcurl_ex4.held (libcurl_ex4.deliver_all [[65, 0, 66]] {}) ≠ cells [65, 0, 66] := by
  decide

/-- After a chunk of `2^32` bytes and a chunk of one byte, `size` is 1 in both
callbacks. -/
theorem sizes_after_wrap (big : List Byte) (h : big.length = 2 ^ 32) :
    (libcurl_ex4.deliver_all [big, [66]] {}).size = 1 ∧
    (libcurl_ex6.deliver_all [big, [66]] {}).size = 1 := by
  have hbig : big.length ≠ 0 := by rw [h]; norm_num
  constructor
  · show (libcurl_ex4.deliver (libcurl_ex4.deliver {} big) [66]).size = 1
    rw [libcurl_ex4.ex4_deliver_size _ _ (by decide)]
    decide
  · show (libcurl_ex6.deliver (libcurl_ex6.deliver {} big) [66]).size = 1
    rw [libcurl_ex6.deliver_size _ _ (by decide), libcurl_ex6.deliver_size _ _ hbig, h]
    show ((0 + 2 ^ 32) % UINT_MOD + 1) % UINT_MOD = 1
    norm_num [UINT_MOD]

/-- Both `size` fields are `unsigned int`: after a chunk of `2^32` bytes and a
chunk of one byte the two callbacks agree on `size` (it is 1 in both),
although two chunks are non-empty. -/
theorem write_data_sizes_agree_after_wrap :
    (libcurl_ex4.deliver_all [List.replicate (2 ^ 32) 65, [66]] {}).size = 1 ∧
    (libcurl_ex6.deliver_all [List.replicate (2 ^ 32) 65, [66]] {}).size = 1 :=
  sizes_after_wrap _ (List.length_replicate _ _)

/-- C11, amended: in `libcurl_ex4.cpp` the callback does not accumulate.  For
every sequence of chunks `pre ++ c :: post` whose last non-empty chunk is `c`
(every chunk of `post` is empty), `c` having no NUL byte and fewer than `2^32`
bytes, delivered in order to `write_data` with any struct, the final `size` is
the length of `c` and the first `size` bytes of the response are the bytes of
`c`.  When moreover the lengths of all chunks sum to less than `2^32`, this
`size` equals the one `write_data` of `libcurl_ex6.cpp` reaches from a fresh
struct exactly when no chunk of `pre` is non-empty, that is when `c` is the
only non-empty chunk. -/
theorem ex4_write_data_keeps_last_chunk (pre post : List (List Byte)) (c : List Byte)
    (s : libcurl_ex4.MyCustomStruct) (url : Option String)
    (hc : c ≠ []) (hpost : ∀ d ∈ post, d = [])
    (h0 : (0 : Byte) ∉ c) (hlen : c.length < UINT_MOD) :
    (libcurl_ex4.deliver_all (pre ++ c :: post) s).size = c.length ∧
    libcurl_ex4.held (libcurl_ex4.deliver_all (pre ++ c :: post) s) = cells c ∧
    (((pre ++ c :: post).map List.length).sum < UINT_MOD →
      ((libcurl_ex4.deliver_all (pre ++ c :: post) s).size
          = (libcurl_ex6.deliver_all (pre ++ c :: post) { url := url }).size ↔
        ∀ d ∈ pre, d = [])) := by
  have hfinal : libcurl_ex4.deliver_all (pre ++ c :: post) s
      = { libcurl_ex4.deliver_all pre s with
          size := c.length, response := some (cells c ++ [some NEWLINE]) } := by
    rw [libcurl_ex4.deliver_all_last pre post c s hpost,
      libcurl_ex4.deliver_chunk _ c hc hlen, libcurl_ex6.strncpy_chars_text c h0]
  have hsize : (libcurl_ex4.deliver_all (pre ++ c :: post) s).size = c.length := by
    rw [hfinal]
  refine ⟨hsize, ?_, ?_⟩
  · unfold libcurl_ex4.held
    rw [hfinal]
    simp only []
    rw [← cells_length c]
    exact List.take_left _ _
  · intro hsum
    have hs : ({ url := url } : libcurl_ex6.MyCustomStruct).size < UINT_MOD := by
      show 0 < UINT_MOD
      norm_num [UINT_MOD]
    have hpost0 : (post.map List.length).sum = 0 := (sum_lengths_eq_zero post).mpr hpost
    have hsplit : ((pre ++ c :: post).map List.length).sum
        = (pre.map List.length).sum + c.length := by
      simp only [List.map_append, List.map_cons, List.sum_append, List.sum_cons, hpost0]
      rfl
    have h6 : (libcurl_ex6.deliver_all (pre ++ c :: post) { url := url }).size
        = (pre.map List.length).sum + c.length := by
      rw [libcurl_ex6.deliver_all_size _ _ hs]
      show (0 + ((pre ++ c :: post).map List.length).sum) % UINT_MOD = _
      rw [Nat.zero_add, Nat.mod_eq_of_lt hsum, hsplit]
    rw [hsize, h6, ← sum_lengths_eq_zero pre]
    omega

/-- Witness of C11 (amended): the chunks `A`, `B C` and an empty one leave
`B C` with `size = 2`, and the sizes of the two callbacks differ. -/
theorem ex4_write_data_keeps_last_chunk_witness :
    (libcurl_ex4.deliver_all ([[65]] ++ [66, 67] :: [[]]) {}).size = [66, 67].length ∧
    libcurl_ex4.held (libcurl_ex4.deliver_all ([[65]] ++ [66, 67] :: [[]]) {})
      = cells [66, 67] ∧
    ((([[65]] ++ [66, 67] :: [[]]).map List.length).sum < UINT_MOD →
      ((libcurl_ex4.deliver_all ([[65]] ++ [66, 67] :: [[]]) {}).size
          = (libcurl_ex6.deliver_all ([[65]] ++ [66, 67] :: [[]]) { url := none }).size ↔
        ∀ d ∈ [[(65 : Byte)]], d = [])) :=
  ex4_write_data_keeps_last_chunk [[65]] [[]] [66, 67] {} none
    (by decide) (by decide) (by decide) (by decide)

/-! ## The callbacks as calls that may not return -/

namespace libcurl_ex3

end libcurl_ex3

namespace libcurl_ex4

end libcurl_ex4

namespace libcurl_ex6

end libcurl_ex6

namespace libcurl_ex6

variable {D : Type}

theorem ex6_call_state (lim : Limits) (buffer : Option (List Byte)) (size nmemb : Nat)
    (userp : Option MyCustomStruct) (v : Nat) (a : Option MyCustomStruct)
    (h : write_data_call lim buffer size nmemb userp = .returned v a) :
    a = (write_data buffer size nmemb userp).2 := by
  unfold write_data_call at h
  rcases buffer with _ | buf <;> rcases userp with _ | s
  · simp only [Ended.returned.injEq] at h
    exact h.2.symm
  · simp only [Ended.returned.injEq] at h
    exact h.2.symm
  · simp only [Ended.returned.injEq] at h
    exact h.2.symm
  · simp only [] at h
    rcases hr : s.response with _ | oldResp <;> rw [hr] at h <;> simp only [] at h <;>
      split_ifs at h <;> simp only [Ended.returned.injEq] at h <;> exact h.2.symm

theorem deliver_call_eq (lim : Limits) (s s' : MyCustomStruct) (c : List Byte)
    (h : deliver_call lim s c = some s') : s' = deliver s c := by
  unfold deliver_call at h
  split at h
  · rename_i v t hcall
    have hst := ex6_call_state lim (some c) 1 c.length (some s) v (some t) hcall
    simp only [Option.some.injEq] at h
    rw [deliver, ← hst, ← h]
  · cases h

theorem perform_chunks_eq (lim : Limits) (chunks : List (List Byte)) (s s' : MyCustomStruct)
    (h : perform_chunks lim chunks s = some s') : s' = deliver_all chunks s := by
  induction chunks generalizing s with
  | nil =>
    simp only [perform_chunks, Option.some.injEq] at h
    rw [← h]
    rfl
  | cons c rest ih =>
    simp only [perform_chunks] at h
    split at h
    · rename_i t ht
      rw [ih t h, deliver_call_eq lim s t c ht]
      rfl
    · cases h

end libcurl_ex6

namespace libcurl_ex6

end libcurl_ex6

namespace libcurl_ex4

end libcurl_ex4

namespace libcurl_ex3

end libcurl_ex3

